import Mathlib

/-!
Verification of the availability-determination core and its consuming
handlers, shallowly embedded from the JavaScript sources
(`api/availability.js`, `api/book.js`, `api/stripe-webhook.js` and the
unnamed handler revisions).

Time is modelled as integer minutes on a single local timeline; a calendar
day `d` occupies the half-open interval `[dayStart d, dayEnd d)` with
`dayStart d = 1440 * d`, matching the local-midnight day boundaries the
handlers compute from a JS `Date`.  The external `ICAL.parse` library call
is modelled as an oracle attached to each payload string: a non-empty
payload either parses to a list of VEVENTs or throws.
-/

namespace Booking

/-- Minutes in one calendar day (the JS code adds one day to local midnight). -/
def minutesPerDay : Int := 1440

/-- Start instant of calendar day `d` (local midnight), in minutes. -/
def dayStart (d : Int) : Int := d * minutesPerDay

/-- End instant of calendar day `d` (next local midnight), in minutes. -/
def dayEnd (d : Int) : Int := (d + 1) * minutesPerDay

/-- `overlaps(s1, e1, s2, e2)` from `api/availability.js`:
half-open interval intersection `s1 < e2 && e1 > s2`. -/
def overlaps (s1 e1 s2 e2 : Int) : Bool := s1 < e2 && e1 > s2

/-- One VEVENT as the JS code observes it through `ical.js`:
`ev.startDate?.toJSDate?.()`, `ev.endDate?.toJSDate?.()` (either may be
absent) and `String(ev.summary || '')`. -/
structure VEvent where
  startDate : Option Int
  endDate : Option Int
  summary : String
deriving DecidableEq

/-- Outcome of `ICAL.parse` on a non-empty payload string: either a list of
VEVENT subcomponents or a thrown exception. -/
inductive ParseOutcome
  | ok (evs : List VEvent)
  | throws
deriving DecidableEq

/-- A non-empty serialized-calendar payload string: its raw text (as lines,
used only by the spec-modelled fallback extractor) together with what
`ICAL.parse` does on it. -/
structure ICSStr where
  lines : List String
  parsed : ParseOutcome
deriving DecidableEq

/-- A JS string value holding calendar data: either the empty string
(falsy) or a non-empty payload. -/
inductive JSStr
  | emptyStr
  | icsStr (s : ICSStr)
deriving DecidableEq

/-- JS truthiness of a string: the empty string is falsy. -/
def strTruthy : JSStr → Bool
  | .emptyStr => false
  | .icsStr _ => true

/-- A raw calendar object as returned by the DAV fetch: the data may sit
under any of three keys, each possibly absent (`undefined`). -/
structure RawObject where
  data : Option JSStr
  calendarData : Option JSStr
  iCalString : Option JSStr
deriving DecidableEq

/-- JS `a || b` for an optional string operand: an absent or empty string
falls through to the alternative. -/
def jsOrStr : Option JSStr → JSStr → JSStr
  | some s, b => if strTruthy s then s else b
  | none, b => b

/-- `getICSFromObj` from `api/availability.js`:
`obj?.data || obj?.calendarData || obj?.iCalString || ''`. -/
def getICSFromObj (o : RawObject) : JSStr :=
  jsOrStr o.data (jsOrStr o.calendarData (jsOrStr o.iCalString .emptyStr))

/-- `extractEventsFromICS` from `api/availability.js`: structured parse of
the payload, returning the VEVENTs; any parse exception is caught and the
empty list returned (the empty string also fails to parse). -/
def extractEventsFromICS : JSStr → List VEvent
  | .emptyStr => []
  | .icsStr s =>
    match s.parsed with
    | .ok evs => evs
    | .throws => []

/-- The per-event test inside the loops of `countEventsOnDate` and
`hasShortRecording`: skip events missing a start or end, otherwise the
half-open overlap test against the day. -/
def eventOverlapsDay (ev : VEvent) (d : Int) : Bool :=
  match ev.startDate, ev.endDate with
  | some s, some e => overlaps s e (dayStart d) (dayEnd d)
  | _, _ => false

/-- Contribution of one raw object in `countEventsOnDate`: the payload must
be truthy (`if (!ics) continue`) and some extracted event must overlap the
day (`count++; break` on the first hit). -/
def entryHasOverlap (o : RawObject) (d : Int) : Bool :=
  let ics := getICSFromObj o
  strTruthy ics && (extractEventsFromICS ics).any (fun ev => eventOverlapsDay ev d)

/-- `countEventsOnDate` from `api/availability.js`: each raw object adds at
most 1, namely when at least one of its extracted events overlaps the day. -/
def countEventsOnDate : List RawObject → Int → Nat
  | [], _ => 0
  | o :: rest, d => (if entryHasOverlap o d then 1 else 0) + countEventsOnDate rest d

/-- JS `\s` whitespace class (ASCII part). -/
def isWS (c : Char) : Bool :=
  c = ' ' || c = '\t' || c = '\n' || c = '\r' || c = '\x0b' || c = '\x0c'

/-- ASCII digit test, as in the regex class `\d`. -/
def isDigitCh (c : Char) : Bool := '0' ≤ c && c ≤ '9'

/-- Case-insensitive character comparison (the regex `/i` flag). -/
def lowerEq (a b : Char) : Bool := a.toLower = b.toLower

/-- Consume a literal case-insensitively from the head of the input,
returning the rest on success. -/
def matchLitCI : List Char → List Char → Option (List Char)
  | [], s => some s
  | _, [] => none
  | p :: ps, c :: cs => if lowerEq p c then matchLitCI ps cs else none

/-- `parseInt(m[1], 10)` on a non-empty digit capture. -/
def digitsVal (ds : List Char) : Nat :=
  ds.foldl (fun a c => 10 * a + (c.toNat - 48)) 0

/-- Attempt the regex `/Recording\s+Session\s*\((\d+)\s*h\)/i` anchored at
the start of the input, returning the captured hour count on success.
Each quantified class is followed by a token outside that class, so
maximal munch coincides with the backtracking regex semantics. -/
def matchShortAt (s : List Char) : Option Nat :=
  match matchLitCI ("Recording".toList) s with
  | none => none
  | some r1 =>
    let ws1 := r1.span isWS
    if ws1.1.isEmpty then none else
    match matchLitCI ("Session".toList) ws1.2 with
    | none => none
    | some r3 =>
      match (r3.span isWS).2 with
      | '(' :: r5 =>
        let ds := r5.span isDigitCh
        if ds.1.isEmpty then none else
        match (ds.2.span isWS).2 with
        | h :: ')' :: _ => if lowerEq h 'h' then some (digitsVal ds.1) else none
        | _ => none
      | _ => none

/-- JS `String.prototype.match` without the global flag: the leftmost
position at which the pattern matches, if any. -/
def firstShortMatch : List Char → Option Nat
  | [] => none
  | c :: cs =>
    match matchShortAt (c :: cs) with
    | some n => some n
    | none => firstShortMatch cs

/-- The captured hours of `summary.match(/Recording\s+Session\s*\((\d+)\s*h\)/i)`. -/
def summaryShortHours (s : String) : Option Nat := firstShortMatch s.toList

/-- The per-event trigger in `hasShortRecording`: a match whose captured
hours are strictly below 4 (`\d+` guarantees the parse is never NaN). -/
def triggersShort (s : String) : Bool :=
  match summaryShortHours s with
  | some n => decide (n < 4)
  | none => false

/-- Contribution of one raw object in `hasShortRecording`: truthy payload,
and some extracted event that overlaps the day and whose summary triggers
the short-session pattern. -/
def objHasShortRecording (o : RawObject) (d : Int) : Bool :=
  let ics := getICSFromObj o
  strTruthy ics &&
    (extractEventsFromICS ics).any (fun ev => eventOverlapsDay ev d && triggersShort ev.summary)

/-- `hasShortRecording` from `api/availability.js`: scans every object and
every extracted overlapping event, returning true on the first short match. -/
def hasShortRecording : List RawObject → Int → Bool
  | [], _ => false
  | o :: rest, d => objHasShortRecording o d || hasShortRecording rest d

/-- The per-day record pushed onto `days` by the availability handler
(the constant `rule` string is omitted; `date` is the day index). -/
structure DayVerdict where
  date : Int
  available : Bool
  blackout : Bool
  bookedCount : Nat
  shortRecording : Bool
deriving DecidableEq

/-- The per-day body of the availability handler loop
(`api/availability.js`, step 5): counts, flags and the fixed rule
`available = !blackout && bookedCount <= 1 && !shortRecording`. -/
def evaluate (bookingObjs blackoutObjs : List RawObject) (d : Int) : DayVerdict :=
  let bookedCount := countEventsOnDate bookingObjs d
  let blackout := decide (countEventsOnDate blackoutObjs d > 0)
  let shortRecording := hasShortRecording bookingObjs d
  ⟨d, !blackout && decide (bookedCount ≤ 1) && !shortRecording,
    blackout, bookedCount, shortRecording⟩

/-- The days visited by the handler loop
`for (let d = startD; d.isBefore(endExclusive); d = d.add(1, day))`:
all days from `s` to `e` inclusive, ascending. -/
def rangeDays (s e : Int) : List Int :=
  List.map (fun i : Nat => s + (i : Int)) (List.range (e + 1 - s).toNat)

/-- The full per-day loop of the availability handler: one verdict per day
of the inclusive range. -/
def evaluateRange (bookingObjs blackoutObjs : List RawObject) (s e : Int) :
    List DayVerdict :=
  (rangeDays s e).map (fun d => evaluate bookingObjs blackoutObjs d)

/-- A caller-supplied date parameter after `dayjs(...).startOf(day)`:
either a valid calendar day or an unparsable input. -/
inductive DateInput
  | valid (d : Int)
  | invalid
deriving DecidableEq

/-- The availability request query: `start` and `end`. `none` models an
absent (or empty, hence falsy) parameter. The source field `end` is a Lean
keyword, so it is named `endParam` here. -/
structure AvailQuery where
  start : Option DateInput
  endParam : Option DateInput
deriving DecidableEq

/-- Outcome of the availability handler on the request-validation and
evaluation path (DAV client, calendar lookup and fetches assumed to
succeed and to yield the two given object lists). -/
inductive HandlerResult
  | badRequest (msg : String)
  | ok (days : List DayVerdict)
deriving DecidableEq

/-- The request-validation and evaluation path of the availability handler
(`api/availability.js`): missing `start` is a 400, `end || start` falls
back to `start`, unparsable days are a 400, and otherwise the per-day loop
output is returned as a 200. -/
def availabilityHandler (q : AvailQuery) (bookingObjs blackoutObjs : List RawObject) :
    HandlerResult :=
  match q.start with
  | none => .badRequest "start required"
  | some si =>
    match si, q.endParam.getD si with
    | .valid s, .valid e => .ok (evaluateRange bookingObjs blackoutObjs s e)
    | _, _ => .badRequest "invalid dates"

/-- Outcome of the booking-creation handler (`api/book.js`). -/
inductive BookResult
  | badRequest (msg : String)
  | conflict
  | created
deriving DecidableEq

/-- The check-then-create path of `api/book.js` (first revision, the one
cited by the spec): `bookedCount` is the number of booking objects fetched
for the time range of the day, `isBlackout` is whether any blackout object was
fetched, and the event is created unless `isBlackout || bookedCount >= 2`.
No short-session check and no per-event overlap test occur here. -/
def bookHandler (dateParam : Option DateInput)
    (bookingObjs blackoutObjs : List RawObject) : BookResult :=
  match dateParam with
  | none => .badRequest "date required"
  | some .invalid => .badRequest "invalid date"
  | some (.valid _) =>
    let bookedCount := bookingObjs.length
    let isBlackout := decide (blackoutObjs.length > 0)
    if isBlackout || decide (bookedCount ≥ 2) then .conflict else .created

/-- What the payment-confirmation webhook did: whether a refund was issued
and whether the booking was created, plus the reported status string. -/
structure WebhookOutcome where
  refunded : Bool
  booked : Bool
  status : String
deriving DecidableEq

/-- The capacity re-check condition of both webhook revisions:
`!day || day.blackout || day.bookedCount >= 2` on the first day returned
by the availability endpoint. -/
def noCapacity : Option DayVerdict → Bool
  | none => true
  | some v => v.blackout || decide (v.bookedCount ≥ 2)

/-- The decision path of `api/stripe-webhook.js` (node revision) for a
verified `checkout.session.completed` event, given the re-checked day
verdict and whether the `/api/book` call succeeds: on no capacity it
acknowledges without refunding (the refund call is commented out in the
source) and without booking; otherwise it books. -/
def stripeWebhookDecision (day : Option DayVerdict) (bookOk : Bool) : WebhookOutcome :=
  if noCapacity day then ⟨false, false, "no capacity"⟩
  else if bookOk then ⟨false, true, "booked"⟩
  else ⟨false, false, "paid but booking failed"⟩

/-- The decision path of the unnamed edge webhook revision
(`src/unnamed/part_005`): on no capacity it refunds exactly when the
session carries a payment intent, and does not book; otherwise it books. -/
def edgeWebhookDecision (day : Option DayVerdict) (hasPaymentIntent bookOk : Bool) :
    WebhookOutcome :=
  if noCapacity day then ⟨hasPaymentIntent, false, "refunded (no capacity)"⟩
  else if bookOk then ⟨false, true, "booked"⟩
  else ⟨false, false, "paid but booking failed"⟩

/-- Modelled from the spec: a label "matches the duration-annotation
pattern with N < 4" when the pattern matches at SOME position of the label
with captured hours below 4 (the unanchored reading of "a label matching
the pattern"); the per-position matcher is the same one the source regex
defines. -/
def anyShortOccurrence : List Char → Bool
  | [] => false
  | c :: cs =>
    (match matchShortAt (c :: cs) with
     | some n => decide (n < 4)
     | none => false) || anyShortOccurrence cs

/-- Modelled from the spec: the label predicate of the `hasShortSession`
sentence, existential over occurrences of the pattern. -/
def labelHasShortPattern (s : String) : Bool := anyShortOccurrence s.toList

/-- Modelled from the spec: `hasShortSession` as the spec states it — some
booking event overlapping the day whose label matches the short pattern. -/
def specHasShortSession (objs : List RawObject) (d : Int) : Bool :=
  objs.any (fun o =>
    (extractEventsFromICS (getICSFromObj o)).any
      (fun ev => eventOverlapsDay ev d && labelHasShortPattern ev.summary))

/-- Value part of an ICS content line: everything after the first colon. -/
def afterColon : List Char → List Char
  | [] => []
  | c :: cs => if c = ':' then cs else afterColon cs

/-- Literal (case-sensitive) head match on character lists. -/
def beginsWith : List Char → List Char → Bool
  | [], _ => true
  | _, [] => false
  | p :: ps, c :: cs => p = c && beginsWith ps cs

/-- The all-day date pattern of the spec fallback: exactly eight digits. -/
def isAllDayDateValue (cs : List Char) : Bool :=
  cs.length = 8 && cs.all isDigitCh

/-- The timestamped UTC pattern of the spec fallback:
`YYYYMMDD` `T` `HHMMSS` `Z`. -/
def isUTCStampValue (cs : List Char) : Bool :=
  match cs.splitAt 8 with
  | (d8, rest) =>
    d8.length = 8 && d8.all isDigitCh &&
    (match rest with
     | 'T' :: t => (match t.splitAt 6 with
        | (t6, z) => t6.length = 6 && t6.all isDigitCh && z = ['Z'])
     | _ => false)

/-- A start or end line of the spec fallback: a `DTSTART`/`DTEND` property
line whose value matches one of the two date patterns. -/
def lineIsDateField (prop : String) (line : String) : Bool :=
  beginsWith prop.toList line.toList &&
    (isAllDayDateValue (afterColon line.toList) || isUTCStampValue (afterColon line.toList))

/-- An event pulled by the spec-modelled fallback extractor: the start and
optional end field values plus the optional summary line value. -/
structure FallbackEvent where
  startField : String
  endField : Option String
  summaryField : Option String
deriving DecidableEq

/-- Lines of one event block: everything up to the closing delimiter. -/
def takeUntilBlockEnd : List String → List String
  | [] => []
  | l :: ls => if l = "END:VEVENT" then [] else l :: takeUntilBlockEnd ls

/-- All event blocks: the lines following each opening delimiter. -/
def eventBlocks : List String → List (List String)
  | [] => []
  | l :: ls =>
    if l = "BEGIN:VEVENT" then takeUntilBlockEnd ls :: eventBlocks ls
    else eventBlocks ls

/-- One block of the spec fallback: requires a start field matching a date
pattern, and picks up the end field and summary line when present. -/
def blockToEvent (blk : List String) : Option FallbackEvent :=
  match blk.find? (lineIsDateField "DTSTART") with
  | none => none
  | some sl =>
    some ⟨String.mk (afterColon sl.toList),
      (blk.find? (lineIsDateField "DTEND")).map (fun l => String.mk (afterColon l.toList)),
      (blk.find? (fun l => beginsWith "SUMMARY".toList l.toList)).map
        (fun l => String.mk (afterColon l.toList))⟩

/-- Modelled from the spec: the permissive text-pattern fallback extractor
of §4.1 — scan for event block delimiters, pull start/end fields matching
the all-day or UTC-timestamp pattern and a summary line. No such fallback
exists anywhere under the sources; this definition exists to be compared
with `extractEventsFromICS`. -/
def fallbackExtractEvents (lines : List String) : List FallbackEvent :=
  (eventBlocks lines).filterMap blockToEvent

/- ---- Concrete fixtures used by counterexamples and witnesses ---- -/

/-- A booking object with a single all-day event on day 0 labelled as a
2-hour recording session. -/
def shortRecObj : RawObject :=
  ⟨some (.icsStr ⟨[], .ok [⟨some 0, some 1440, "Recording Session (2h)"⟩]⟩), none, none⟩

/-- A blackout object with a single all-day event on day 0. -/
def blkObj : RawObject :=
  ⟨some (.icsStr ⟨[], .ok [⟨some 0, some 1440, "Studio closed"⟩]⟩), none, none⟩

/-- A booking object with one overlapping event whose label contains the
pattern twice: first with 5 hours, then with 2 hours. -/
def doubleSessionObj : RawObject :=
  ⟨some (.icsStr ⟨[], .ok
    [⟨some 0, some 1440, "Recording Session (5h) Recording Session (2h)"⟩]⟩), none, none⟩

/-- An entry whose payload is the empty string (under the `data` key). -/
def emptyPayloadEntry : RawObject := ⟨some .emptyStr, none, none⟩

/-- A truncated serialized-calendar payload: it contains one complete,
well-formed VEVENT block, but the container is cut off before
`END:VCALENDAR`, so the structured parser throws on it. -/
def truncatedICS : ICSStr :=
  ⟨["BEGIN:VCALENDAR", "VERSION:2.0", "BEGIN:VEVENT",
    "DTSTART;VALUE=DATE:20240601", "DTEND;VALUE=DATE:20240602",
    "SUMMARY:609 Booking", "END:VEVENT"], .throws⟩

/-- A raw object carrying the truncated payload. -/
def truncatedObj : RawObject := ⟨some (.icsStr truncatedICS), none, none⟩

/- ---- Helper lemmas ---- -/

theorem countEventsOnDate_append (l1 l2 : List RawObject) (d : Int) :
    countEventsOnDate (l1 ++ l2) d = countEventsOnDate l1 d + countEventsOnDate l2 d := by
  induction l1 with
  | nil => simp [countEventsOnDate]
  | cons o rest ih => simp [countEventsOnDate, ih]; omega

theorem hasShortRecording_append (l1 l2 : List RawObject) (d : Int) :
    hasShortRecording (l1 ++ l2) d = (hasShortRecording l1 d || hasShortRecording l2 d) := by
  induction l1 with
  | nil => simp [hasShortRecording]
  | cons o rest ih => simp [hasShortRecording, ih, Bool.or_assoc]

theorem entryHasOverlap_eq_any (o : RawObject) (d : Int) :
    entryHasOverlap o d =
      (extractEventsFromICS (getICSFromObj o)).any (fun ev => eventOverlapsDay ev d) := by
  cases h : getICSFromObj o with
  | emptyStr => simp [entryHasOverlap, h, strTruthy, extractEventsFromICS]
  | icsStr s => simp [entryHasOverlap, h, strTruthy]

theorem objHasShortRecording_iff (o : RawObject) (d : Int) :
    objHasShortRecording o d = true ↔
      ∃ ev ∈ extractEventsFromICS (getICSFromObj o),
        eventOverlapsDay ev d = true ∧ triggersShort ev.summary = true := by
  cases h : getICSFromObj o with
  | emptyStr => simp [objHasShortRecording, h, strTruthy, extractEventsFromICS]
  | icsStr s => simp [objHasShortRecording, h, strTruthy, List.any_eq_true]

theorem triggersShort_iff (s : String) :
    triggersShort s = true ↔ ∃ n, summaryShortHours s = some n ∧ n < 4 := by
  unfold triggersShort
  cases h : summaryShortHours s <;> simp [h]

theorem objShort_imp_entryOverlap (o : RawObject) (d : Int)
    (h : objHasShortRecording o d = true) : entryHasOverlap o d = true := by
  obtain ⟨ev, hm, hov, -⟩ := (objHasShortRecording_iff o d).mp h
  rw [entryHasOverlap_eq_any, List.any_eq_true]
  exact ⟨ev, hm, hov⟩

theorem mem_overlap_le_count (objs : List RawObject) (o : RawObject) (d : Int)
    (hm : o ∈ objs) (ho : entryHasOverlap o d = true) :
    1 ≤ countEventsOnDate objs d := by
  induction objs with
  | nil => cases hm
  | cons a rest ih =>
    rcases List.mem_cons.mp hm with rfl | hmem
    · simp [countEventsOnDate, ho]
    · have := ih hmem
      simp only [countEventsOnDate]
      omega

theorem countEventsOnDate_le_length (objs : List RawObject) (d : Int) :
    countEventsOnDate objs d ≤ objs.length := by
  induction objs with
  | nil => simp [countEventsOnDate]
  | cons o rest ih =>
    simp only [countEventsOnDate, List.length_cons]
    cases entryHasOverlap o d <;> simp <;> omega

theorem count_middle_inert (l1 l2 : List RawObject) (o : RawObject) (d : Int)
    (h : entryHasOverlap o d = false) :
    countEventsOnDate (l1 ++ o :: l2) d = countEventsOnDate (l1 ++ l2) d := by
  rw [countEventsOnDate_append, countEventsOnDate_append]
  simp [countEventsOnDate, h]

theorem short_middle_inert (l1 l2 : List RawObject) (o : RawObject) (d : Int)
    (h : objHasShortRecording o d = false) :
    hasShortRecording (l1 ++ o :: l2) d = hasShortRecording (l1 ++ l2) d := by
  rw [hasShortRecording_append, hasShortRecording_append]
  simp [hasShortRecording, h]

theorem emptyPayload_no_overlap (d : Int) : entryHasOverlap emptyPayloadEntry d = false := by
  simp [entryHasOverlap, emptyPayloadEntry, getICSFromObj, jsOrStr, strTruthy,
    extractEventsFromICS]

theorem emptyPayload_no_short (d : Int) : objHasShortRecording emptyPayloadEntry d = false := by
  simp [objHasShortRecording, emptyPayloadEntry, getICSFromObj, jsOrStr, strTruthy,
    extractEventsFromICS]

theorem evaluateRange_dates (bk bl : List RawObject) (s e : Int) :
    (evaluateRange bk bl s e).map (fun v => v.date) = rangeDays s e := by
  unfold evaluateRange
  rw [List.map_map]
  have h : ((fun v : DayVerdict => v.date) ∘ fun d => evaluate bk bl d) = id :=
    funext fun d => rfl
  rw [h, List.map_id]

theorem rangeDays_length (s e : Int) : (rangeDays s e).length = (e + 1 - s).toNat := by
  unfold rangeDays
  rw [List.length_map, List.length_range]

theorem mem_rangeDays (s e d : Int) : d ∈ rangeDays s e ↔ s ≤ d ∧ d ≤ e := by
  unfold rangeDays
  rw [List.mem_map]
  constructor
  · rintro ⟨i, hi, rfl⟩
    rw [List.mem_range] at hi
    constructor
    · show s ≤ s + (i : Int)
      omega
    · show s + (i : Int) ≤ e
      omega
  · rintro ⟨h1, h2⟩
    refine ⟨(d - s).toNat, List.mem_range.mpr (by omega), ?_⟩
    show s + ((d - s).toNat : Int) = d
    omega

theorem rangeDays_sorted (s e : Int) :
    List.Pairwise (fun a b => a < b) (rangeDays s e) := by
  unfold rangeDays
  rw [List.pairwise_map]
  refine List.Pairwise.imp ?_ (List.pairwise_lt_range _)
  intro a b hab
  show s + (a : Int) < s + (b : Int)
  omega

/- ---- Claim theorems ---- -/

/-- Claim C1: every DayVerdict produced for a day of a requested range
satisfies `available = (!blackout && bookedCount <= 1 && !shortRecording)`;
with no blackout and no short session the verdict reduces to
`bookedCount <= 1` (so 0 and 1 are available and 2 is not), and any
blackout object with an event overlapping the day forces
`available = false` regardless of the booked count. -/
theorem availability_rule_invariant (bk bl : List RawObject) (s e : Int)
    (v : DayVerdict) (hv : v ∈ evaluateRange bk bl s e) :
    v.available = (!v.blackout && decide (v.bookedCount ≤ 1) && !v.shortRecording) ∧
    (v.blackout = false → v.shortRecording = false →
      v.available = decide (v.bookedCount ≤ 1)) ∧
    (∀ o, o ∈ bl → entryHasOverlap o v.date = true → v.available = false) := by
  obtain ⟨d, hd, rfl⟩ := List.mem_map.mp hv
  refine ⟨rfl, ?_, ?_⟩
  · intro hb hs
    simp only [evaluate] at hb hs ⊢
    rw [hb, hs]
    simp
  · intro o ho hov
    have hcnt : 1 ≤ countEventsOnDate bl d :=
      mem_overlap_le_count bl o d ho (by simpa [evaluate] using hov)
    simp only [evaluate]
    have : decide (countEventsOnDate bl d > 0) = true := by
      simp; omega
    rw [this]
    simp

/-- Witness for C1: a request for the single day 0 with one overlapping
blackout object yields a verdict that the rule marks unavailable. -/
theorem availability_rule_invariant_witness :
    (evaluate [] [blkObj] 0).available = false :=
  (availability_rule_invariant [] [blkObj] 0 0 (evaluate [] [blkObj] 0)
    (by decide)).2.2 blkObj (by decide) (by decide)

/-- Claim C2: for `startDay <= endDayInclusive` the range evaluation
returns exactly `endDayInclusive - startDay + 1` verdicts whose dates are
precisely the days of the inclusive range in strictly ascending order, and
for `startDay > endDayInclusive` it returns the empty list. -/
theorem evaluateRange_shape (bk bl : List RawObject) (s e : Int) :
    (s ≤ e → (evaluateRange bk bl s e).length = (e - s).toNat + 1) ∧
    (e < s → evaluateRange bk bl s e = []) ∧
    List.Pairwise (fun a b => a < b) ((evaluateRange bk bl s e).map (fun v => v.date)) ∧
    (∀ d : Int, d ∈ (evaluateRange bk bl s e).map (fun v => v.date) ↔ s ≤ d ∧ d ≤ e) := by
  refine ⟨?_, ?_, ?_, ?_⟩
  · intro hle
    unfold evaluateRange
    rw [List.length_map, rangeDays_length]
    omega
  · intro hlt
    have h0 : (e + 1 - s).toNat = 0 := by omega
    unfold evaluateRange rangeDays
    rw [h0]
    rfl
  · rw [evaluateRange_dates]
    exact rangeDays_sorted s e
  · intro d
    rw [evaluateRange_dates]
    exact mem_rangeDays s e d

/-- Witness for C2: a three-day range yields three verdicts and an
inverted range yields none. -/
theorem evaluateRange_shape_witness :
    (evaluateRange [] [] 0 2).length = (2 - 0 : Int).toNat + 1 ∧
    evaluateRange [] [] 5 3 = [] :=
  ⟨(evaluateRange_shape [] [] 0 2).1 (by decide),
   (evaluateRange_shape [] [] 5 3).2.1 (by decide)⟩

/-- Claim C3 counterexample: an overlapping booking event whose label
contains the pattern twice, first as (5h) then as (2h). The label matches
the pattern with N = 2 < 4, yet `hasShortRecording` is false, because the
source consults only the leftmost match of `String.prototype.match`. -/
theorem short_session_counterexample :
    hasShortRecording [doubleSessionObj] 0 = false ∧
    specHasShortSession [doubleSessionObj] 0 = true := by decide

/-- Claim C3 (amended): `hasShortRecording` is true iff some extracted
booking event overlapping the day has a summary whose LEFTMOST match of
the pattern `Recording Session (Nh)` (case-insensitive) captures N < 4;
the label "Recording Session (4h)" never triggers the flag. -/
theorem hasShortRecording_iff_leftmost (objs : List RawObject) (d : Int) :
    (hasShortRecording objs d = true ↔
      ∃ o ∈ objs, ∃ ev ∈ extractEventsFromICS (getICSFromObj o),
        eventOverlapsDay ev d = true ∧
          ∃ n, summaryShortHours ev.summary = some n ∧ n < 4) ∧
    triggersShort "Recording Session (4h)" = false := by
  refine ⟨?_, by decide⟩
  induction objs with
  | nil => simp [hasShortRecording]
  | cons o rest ih =>
    simp only [hasShortRecording, Bool.or_eq_true, ih, List.mem_cons]
    constructor
    · rintro (h | ⟨o', ho', hrest⟩)
      · obtain ⟨ev, hev, hov, htr⟩ := (objHasShortRecording_iff o d).mp h
        exact ⟨o, Or.inl rfl, ev, hev, hov, (triggersShort_iff ev.summary).mp htr⟩
      · exact ⟨o', Or.inr ho', hrest⟩
    · rintro ⟨o', ho' | ho', ev, hev, hov, hn⟩
      · refine Or.inl ((objHasShortRecording_iff o d).mpr
          ⟨ev, ?_, hov, (triggersShort_iff ev.summary).mpr hn⟩)
        rw [← ho']
        exact hev
      · exact Or.inr ⟨o', ho', ev, hev, hov, hn⟩

/-- Claim C4: each raw source entry contributes exactly 1 to the booked
count when at least one of its extracted events overlaps the day and 0
otherwise, independently of how many of its sub-events overlap. -/
theorem countEventsOnDate_per_entry (l1 l2 : List RawObject) (o : RawObject) (d : Int) :
    countEventsOnDate (l1 ++ o :: l2) d =
      countEventsOnDate (l1 ++ l2) d +
        (if (extractEventsFromICS (getICSFromObj o)).any (fun ev => eventOverlapsDay ev d)
          then 1 else 0) := by
  rw [countEventsOnDate_append, countEventsOnDate_append]
  simp only [countEventsOnDate, ← entryHasOverlap_eq_any]
  cases entryHasOverlap o d
  all_goals simp
  all_goals omega

/-- Claim C5 counterexample: on day 0 one booking object holds an
overlapping short recording session, so the availability verdict is
unavailable, yet the booking handler creates the entry (it re-checks only
the blackout flag and the fetched-object count, never the short-session
rule). -/
theorem book_skips_short_session_check :
    (evaluate [shortRecObj] [] 0).available = false ∧
    bookHandler (some (.valid 0)) [shortRecObj] [] = .created := by decide

/-- Claim C5 (amended): for a valid date the booking handler creates the
entry iff no blackout object and at most one booking object were fetched
for that day; that check guarantees the re-checked verdict has no blackout
and bookedCount <= 1 (but not full availability), and in every other case
the handler answers 409 and creates nothing. -/
theorem book_recheck_guarantee (d : Int) (bk bl : List RawObject) :
    (bookHandler (some (.valid d)) bk bl = .created ↔ bl = [] ∧ bk.length ≤ 1) ∧
    (bookHandler (some (.valid d)) bk bl = .created →
      (evaluate bk bl d).blackout = false ∧ (evaluate bk bl d).bookedCount ≤ 1) ∧
    (¬ (bl = [] ∧ bk.length ≤ 1) →
      bookHandler (some (.valid d)) bk bl = .conflict) := by
  have hiff : bookHandler (some (.valid d)) bk bl = .created ↔
      bl = [] ∧ bk.length ≤ 1 := by
    show (if decide (bl.length > 0) || decide (bk.length ≥ 2)
        then BookResult.conflict else BookResult.created) = BookResult.created ↔
      bl = [] ∧ bk.length ≤ 1
    by_cases hb : bl.length > 0
    · simp [hb]
      rintro rfl
      simp at hb
    · by_cases hk : bk.length ≥ 2
      · simp [hb, hk]
        intro h1
        omega
      · simp [hb, hk]
        exact ⟨List.length_eq_zero.mp (by omega), by omega⟩
  refine ⟨hiff, ?_, ?_⟩
  · intro h
    obtain ⟨hbl, hbk⟩ := hiff.mp h
    subst hbl
    constructor
    · simp [evaluate, countEventsOnDate]
    · have := countEventsOnDate_le_length bk d
      simp only [evaluate]
      omega
  · intro h
    show (if decide (bl.length > 0) || decide (bk.length ≥ 2)
        then BookResult.conflict else BookResult.created) = BookResult.conflict
    have hcond : (decide (bl.length > 0) || decide (bk.length ≥ 2)) = true := by
      by_cases hb : bl.length > 0
      · simp [hb]
      · have hbl : bl = [] := List.length_eq_zero.mp (by omega)
        have hk : bk.length ≥ 2 := by
          by_contra hk2
          exact h ⟨hbl, by omega⟩
        simp [hk]
    rw [hcond]
    simp

/-- Witness for C5 (amended): with nothing fetched for the day, the
handler creates the entry and the corresponding verdict has no blackout
and a zero booked count. -/
theorem book_recheck_guarantee_witness :
    bookHandler (some (.valid 0)) [] [] = .created ∧
    (evaluate [] [] 0).blackout = false ∧ (evaluate [] [] 0).bookedCount ≤ 1 :=
  ⟨(book_recheck_guarantee 0 [] []).1.mpr ⟨rfl, by decide⟩,
   (book_recheck_guarantee 0 [] []).2.1 ((book_recheck_guarantee 0 [] []).1.mpr ⟨rfl, by decide⟩)⟩

/-- Claim C6 counterexample: a verdict flipped to unavailable purely by a
short recording session is booked anyway by BOTH webhook revisions with no
refund (their re-check looks only at `blackout` and `bookedCount >= 2`),
and even for a blackout day the node webhook revision refuses to book but
issues no refund. -/
theorem webhook_books_despite_unavailable :
    (evaluate [shortRecObj] [] 0).available = false ∧
    (stripeWebhookDecision (some (evaluate [shortRecObj] [] 0)) true).booked = true ∧
    (stripeWebhookDecision (some (evaluate [shortRecObj] [] 0)) true).refunded = false ∧
    (edgeWebhookDecision (some (evaluate [shortRecObj] [] 0)) true true).booked = true ∧
    (edgeWebhookDecision (some (evaluate [shortRecObj] [] 0)) true true).refunded = false ∧
    (evaluate [] [blkObj] 0).available = false ∧
    stripeWebhookDecision (some (evaluate [] [blkObj] 0)) true =
      ⟨false, false, "no capacity"⟩ := by decide

/-- Claim C6 (amended): when the re-checked day is missing, or its verdict
shows a blackout or a booked count of at least 2, neither webhook revision
creates the booking; the node revision never refunds there, and the edge
revision refunds exactly when the session carries a payment intent. A
verdict flipped to unavailable while free of blackout and under the
capacity bound (i.e. only through the short-session flag) stops neither
revision from booking. -/
theorem webhook_recheck_behavior (bk bl : List RawObject) (d : Int) (pi bookOk : Bool) :
    ((stripeWebhookDecision none bookOk).booked = false ∧
     (stripeWebhookDecision none bookOk).refunded = false ∧
     (edgeWebhookDecision none pi bookOk).booked = false ∧
     (edgeWebhookDecision none pi bookOk).refunded = pi) ∧
    ((evaluate bk bl d).blackout = true ∨ 2 ≤ (evaluate bk bl d).bookedCount →
      (stripeWebhookDecision (some (evaluate bk bl d)) bookOk).booked = false ∧
      (stripeWebhookDecision (some (evaluate bk bl d)) bookOk).refunded = false ∧
      (edgeWebhookDecision (some (evaluate bk bl d)) pi bookOk).booked = false ∧
      (edgeWebhookDecision (some (evaluate bk bl d)) pi bookOk).refunded = pi) ∧
    ((evaluate bk bl d).available = false → (evaluate bk bl d).blackout = false →
      (evaluate bk bl d).bookedCount ≤ 1 →
      (stripeWebhookDecision (some (evaluate bk bl d)) true).booked = true ∧
      (stripeWebhookDecision (some (evaluate bk bl d)) true).refunded = false ∧
      (edgeWebhookDecision (some (evaluate bk bl d)) pi true).booked = true ∧
      (edgeWebhookDecision (some (evaluate bk bl d)) pi true).refunded = false) := by
  refine ⟨?_, ?_, ?_⟩
  · simp [stripeWebhookDecision, edgeWebhookDecision, noCapacity]
  · intro h
    have hnc : noCapacity (some (evaluate bk bl d)) = true := by
      simp only [noCapacity, Bool.or_eq_true, decide_eq_true_eq]
      rcases h with h | h
      · exact Or.inl h
      · exact Or.inr h
    simp [stripeWebhookDecision, edgeWebhookDecision, hnc]
  · intro hav hb hc
    have h2 : decide ((evaluate bk bl d).bookedCount ≥ 2) = false := by
      simp
      omega
    have hnc : noCapacity (some (evaluate bk bl d)) = false := by
      simp [noCapacity, hb, h2]
    simp [stripeWebhookDecision, edgeWebhookDecision, hnc]

/-- Witness for C6 (amended): a missing day and a blackout day stop the
booking (the node revision refunding nothing, the edge revision refunding
under a payment intent), while the short-session-only unavailable day 0 is
booked by both revisions. -/
theorem webhook_recheck_behavior_witness :
    (stripeWebhookDecision none true).booked = false ∧
    (stripeWebhookDecision (some (evaluate [] [blkObj] 0)) true).booked = false ∧
    (stripeWebhookDecision (some (evaluate [] [blkObj] 0)) true).refunded = false ∧
    (edgeWebhookDecision (some (evaluate [] [blkObj] 0)) true true).refunded = true ∧
    (stripeWebhookDecision (some (evaluate [shortRecObj] [] 0)) true).booked = true ∧
    (edgeWebhookDecision (some (evaluate [shortRecObj] [] 0)) true true).booked = true :=
  ⟨(webhook_recheck_behavior [] [blkObj] 0 true true).1.1,
   ((webhook_recheck_behavior [] [blkObj] 0 true true).2.1 (Or.inl (by decide))).1,
   ((webhook_recheck_behavior [] [blkObj] 0 true true).2.1 (Or.inl (by decide))).2.1,
   ((webhook_recheck_behavior [] [blkObj] 0 true true).2.1 (Or.inl (by decide))).2.2.2,
   ((webhook_recheck_behavior [shortRecObj] [] 0 true true).2.2
     (by decide) (by decide) (by decide)).1,
   ((webhook_recheck_behavior [shortRecObj] [] 0 true true).2.2
     (by decide) (by decide) (by decide)).2.2.1⟩

/-- Claim C7 counterexample: a truncated payload on which the structured
parser throws contains one complete event block that the permissive spec
fallback extractor pulls out, yet the source extraction returns the empty
list — the events of the payload are discarded, with no fallback. -/
theorem parse_failure_discards_events :
    extractEventsFromICS (.icsStr truncatedICS) = [] ∧
    fallbackExtractEvents truncatedICS.lines =
      [⟨"20240601", some "20240602", some "609 Booking"⟩] := by decide

/-- Claim C7 (amended): when structured parsing throws on a payload, the
source yields no events for it (the events of the payload are discarded rather
than recovered by any fallback), and evaluation of the remaining objects
is unaffected by the presence of that payload. -/
theorem parse_failure_graceful (s : ICSStr) (h : s.parsed = .throws)
    (o : RawObject) (ho : getICSFromObj o = .icsStr s)
    (l1 l2 : List RawObject) (d : Int) :
    extractEventsFromICS (.icsStr s) = [] ∧
    countEventsOnDate (l1 ++ o :: l2) d = countEventsOnDate (l1 ++ l2) d ∧
    hasShortRecording (l1 ++ o :: l2) d = hasShortRecording (l1 ++ l2) d := by
  have hext : extractEventsFromICS (.icsStr s) = [] := by
    simp [extractEventsFromICS, h]
  have hov : entryHasOverlap o d = false := by
    rw [entryHasOverlap_eq_any, ho, hext]
    simp
  have hsh : objHasShortRecording o d = false := by
    simp [objHasShortRecording, ho, hext]
  exact ⟨hext, count_middle_inert l1 l2 o d hov, short_middle_inert l1 l2 o d hsh⟩

/-- Witness for C7 (amended): the truncated payload yields no events and a
booking list containing it counts the same as without it. -/
theorem parse_failure_graceful_witness :
    extractEventsFromICS (.icsStr truncatedICS) = [] ∧
    countEventsOnDate ([shortRecObj] ++ truncatedObj :: []) 0 =
      countEventsOnDate ([shortRecObj] ++ []) 0 ∧
    hasShortRecording ([shortRecObj] ++ truncatedObj :: []) 0 =
      hasShortRecording ([shortRecObj] ++ []) 0 :=
  parse_failure_graceful truncatedICS rfl truncatedObj rfl [shortRecObj] [] 0

/-- Claim C8: inserting one entry whose payload is the empty string into
either event list leaves every DayVerdict of a range evaluation unchanged
(the entry is treated exactly as absent; evaluation is total). -/
theorem evaluateRange_empty_payload_inert (bk1 bk2 bl1 bl2 : List RawObject) (s e : Int) :
    evaluateRange (bk1 ++ emptyPayloadEntry :: bk2) (bl1 ++ bl2) s e =
      evaluateRange (bk1 ++ bk2) (bl1 ++ bl2) s e ∧
    evaluateRange (bk1 ++ bk2) (bl1 ++ emptyPayloadEntry :: bl2) s e =
      evaluateRange (bk1 ++ bk2) (bl1 ++ bl2) s e := by
  have hev1 : ∀ d, evaluate (bk1 ++ emptyPayloadEntry :: bk2) (bl1 ++ bl2) d =
      evaluate (bk1 ++ bk2) (bl1 ++ bl2) d := by
    intro d
    unfold evaluate
    rw [count_middle_inert _ _ _ _ (emptyPayload_no_overlap d),
      short_middle_inert _ _ _ _ (emptyPayload_no_short d)]
  have hev2 : ∀ d, evaluate (bk1 ++ bk2) (bl1 ++ emptyPayloadEntry :: bl2) d =
      evaluate (bk1 ++ bk2) (bl1 ++ bl2) d := by
    intro d
    unfold evaluate
    rw [count_middle_inert _ _ _ _ (emptyPayload_no_overlap d)]
  constructor
  · unfold evaluateRange
    exact List.map_congr_left (fun d _ => hev1 d)
  · unfold evaluateRange
    exact List.map_congr_left (fun d _ => hev2 d)

/-- Claim C9 counterexample: a request whose start day 5 lies after its
end day 3 is answered with HTTP 200 and an empty day list, not with a
rejection. -/
theorem inverted_range_not_rejected :
    availabilityHandler ⟨some (.valid 5), some (.valid 3)⟩ [] [] = .ok [] := by decide

/-- Claim C9 (amended): a missing or unparsable day parameter is rejected
as a 400, but a parsable range with startDay after endDayInclusive is
answered successfully with an empty verdict list. -/
theorem availabilityHandler_validation (q : AvailQuery) (bk bl : List RawObject) :
    (q.start = none → availabilityHandler q bk bl = .badRequest "start required") ∧
    (q.start = some .invalid → availabilityHandler q bk bl = .badRequest "invalid dates") ∧
    (∀ s : Int, q.start = some (.valid s) → q.endParam = some .invalid →
      availabilityHandler q bk bl = .badRequest "invalid dates") ∧
    (∀ s e : Int, q.start = some (.valid s) → q.endParam = some (.valid e) → e < s →
      availabilityHandler q bk bl = .ok []) := by
  obtain ⟨qs, qe⟩ := q
  refine ⟨?_, ?_, ?_, ?_⟩
  · rintro rfl
    rfl
  · rintro rfl
    cases qe with
    | none => rfl
    | some ei => cases ei <;> rfl
  · rintro s rfl rfl
    rfl
  · rintro s e rfl rfl hlt
    have h0 : (e + 1 - s).toNat = 0 := by omega
    simp [availabilityHandler, evaluateRange, rangeDays, h0]

/-- Witness for C9 (amended): missing start is rejected; an inverted valid
range is answered with an empty list. -/
theorem availabilityHandler_validation_witness :
    availabilityHandler ⟨none, none⟩ [] [] = .badRequest "start required" ∧
    availabilityHandler ⟨some (.valid 7), some (.valid 4)⟩ [] [] = .ok [] :=
  ⟨(availabilityHandler_validation ⟨none, none⟩ [] []).1 rfl,
   (availabilityHandler_validation ⟨some (.valid 7), some (.valid 4)⟩ [] []).2.2.2
     7 4 rfl rfl (by decide)⟩

/-- Claim C10: a true short-session flag implies at least one counted
booking on that day, both at the level of the two scanning functions and
at the level of the produced verdict. -/
theorem shortRecording_implies_booked (objs bl : List RawObject) (d : Int) :
    (hasShortRecording objs d = true → 1 ≤ countEventsOnDate objs d) ∧
    ((evaluate objs bl d).shortRecording = true → 1 ≤ (evaluate objs bl d).bookedCount) := by
  have hmain : hasShortRecording objs d = true → 1 ≤ countEventsOnDate objs d := by
    induction objs with
    | nil => intro h; simp [hasShortRecording] at h
    | cons o rest ih =>
      intro h
      rcases Bool.or_eq_true_iff.mp h with h1 | h1
      · exact mem_overlap_le_count (o :: rest) o d (List.mem_cons_self o rest)
          (objShort_imp_entryOverlap o d h1)
      · have := ih h1
        simp only [countEventsOnDate]
        omega
  exact ⟨hmain, fun h => hmain (by simpa [evaluate] using h)⟩

/-- Witness for C10: one short recording session on day 0 flags the day
and indeed yields a booked count of at least one. -/
theorem shortRecording_implies_booked_witness :
    1 ≤ countEventsOnDate [shortRecObj] 0 :=
  (shortRecording_implies_booked [shortRecObj] [] 0).1 (by decide)

end Booking
